import Mathlib

/-!
Verification of the prompt-manager core: the template rendering engine, the
schema validation engine, and the orchestration in
`src/prompt_manager/core/manager.py` (`PromptManager`).

The repository ships `manager.py`, `protocols.py` and the test suite; the
template engine (`core/template.py`) and the validation package
(`validation/models.py`, `validation/validators.py`, `validation/loader.py`)
are declared and exercised by those files but their sources are not part of
the checkout, so they are modelled from the specification (each such
definition carries a doc comment starting with `Modelled from the spec:`).
Everything taken from `manager.py` is embedded directly from its source.
-/

instance {ε α : Type} [DecidableEq ε] [DecidableEq α] : DecidableEq (Except ε α) :=
  fun x y =>
    match x, y with
    | .ok a, .ok b =>
      if h : a = b then .isTrue (by rw [h]) else .isFalse (by simpa using h)
    | .error a, .error b =>
      if h : a = b then .isTrue (by rw [h]) else .isFalse (by simpa using h)
    | .ok _, .error _ => .isFalse (fun h => Except.noConfusion h)
    | .error _, .ok _ => .isFalse (fun h => Except.noConfusion h)

namespace PromptMgr

/-- The opening brace character. -/
def lbrace : Char := Char.ofNat 123

/-- The closing brace character. -/
def rbrace : Char := Char.ofNat 125

/-- Trim ASCII whitespace from both ends of a character list. -/
def trimChars (cs : List Char) : List Char :=
  ((cs.dropWhile Char.isWhitespace).reverse.dropWhile Char.isWhitespace).reverse

/-- Trim whitespace from both ends of a string (list-level, kernel friendly). -/
def strTrim (s : String) : String := String.mk (trimChars s.data)

/-- Does `s` start with `p`? (list-level, kernel friendly) -/
def strStartsWith (s p : String) : Bool := p.data.isPrefixOf s.data

/-- Drop the first `n` characters of a string. -/
def strDrop (s : String) (n : Nat) : String := String.mk (s.data.drop n)

/-- Join a list of strings with a separator, like Python `sep.join(parts)`. -/
def joinSep (sep : String) : List String → String
  | [] => ""
  | [x] => x
  | x :: y :: rest => x ++ sep ++ joinSep sep (y :: rest)

/-- A runtime value, standing in for the Python values that flow through
validation and template contexts.  The model covers the scalar values the
test-suite and spec exercise (strings, integers, booleans, `None`). -/
inductive Value where
  | vstr (s : String)
  | vint (n : Int)
  | vbool (b : Bool)
  | vnull
deriving DecidableEq

/-- Python `str()` of a modelled value. -/
def valueToString : Value → String
  | .vstr s => s
  | .vint n => toString n
  | .vbool b => if b then "True" else "False"
  | .vnull => "None"

/-- A scanned template token: literal text, or the contents of a
double-brace tag. -/
inductive Tok where
  | text (s : String)
  | tag (s : String)
deriving DecidableEq

/-- Modelled from the spec: the template scanner of the missing
`core/template.py`.  Splits a character stream into literal text and the
contents of double-brace tags; an unterminated tag is dropped.  `acc` holds
the current run (reversed); `inTag` says whether we are inside a tag. -/
def scan : List Char → List Char → Bool → List Tok
  | [], acc, inTag =>
    if inTag then [] else if acc.isEmpty then [] else [Tok.text (String.mk acc.reverse)]
  | [c], acc, inTag =>
    if inTag then [] else [Tok.text (String.mk (c :: acc).reverse)]
  | c1 :: c2 :: cs, acc, false =>
    if c1 = lbrace ∧ c2 = lbrace then
      if acc.isEmpty then scan cs [] true
      else Tok.text (String.mk acc.reverse) :: scan cs [] true
    else scan (c2 :: cs) (c1 :: acc) false
  | c1 :: c2 :: cs, acc, true =>
    if c1 = rbrace ∧ c2 = rbrace then Tok.tag (String.mk acc.reverse) :: scan cs [] false
    else scan (c2 :: cs) (c1 :: acc) true

/-- Scan a template string into tokens. -/
def scanTemplate (t : String) : List Tok := scan t.data [] false

/-- Modelled from the spec: classification of a tag for variable
extraction — `\x7b\x7b#if x\x7d\x7d` and `\x7b\x7b#each x\x7d\x7d` yield their argument,
other block tags, closers and partial markers yield nothing, block keywords
(`if`, `each`, `this`, `@index`) are excluded, and whitespace inside the
braces is trimmed. -/
def keywordFilter (s : String) : Option String :=
  if s = "if" ∨ s = "each" ∨ s = "this" ∨ s = "@index" ∨ s = "" then none else some s

/-- The identifier referenced by a tag body, if any (see `keywordFilter`). -/
def tagIdentifier (t : String) : Option String :=
  let s := strTrim t
  if strStartsWith s "#if " then keywordFilter (strTrim (strDrop s 4))
  else if strStartsWith s "#each " then keywordFilter (strTrim (strDrop s 6))
  else if strStartsWith s "#" then none
  else if strStartsWith s "/" then none
  else if strStartsWith s ">" then none
  else keywordFilter s

/-- Modelled from the spec: `extract_variables` of the missing
`core/template.py` — the deduplicated collection of variable names
referenced by a template. -/
def extractVariables (t : String) : List String :=
  ((scanTemplate t).filterMap fun tok =>
    match tok with
    | .text _ => none
    | .tag s => tagIdentifier s).dedup

/-- The error raised when template evaluation fails (unresolved variable,
construct outside the modelled fragment). -/
structure TemplateRenderError where
  message : String
deriving DecidableEq

/-- Is a (trimmed) tag body a plain variable reference, as opposed to a
block opener, block closer or partial marker? -/
def isPlainVar (name : String) : Bool :=
  !(strStartsWith name "#") && !(strStartsWith name "/") && !(strStartsWith name ">")

/-- Modelled from the spec: evaluation of a scanned token list of the
missing `core/template.py` against a variable context, with the strict
missing-variable policy — an unresolved variable raises
`TemplateRenderError` naming it.  The model evaluates the plain-variable
fragment of the language; block helpers and partial inclusion (which no
claim exercises at evaluation time) surface as an evaluation error. -/
def renderToks : List Tok → List (String × Value) → Except TemplateRenderError String
  | [], _ => .ok ""
  | Tok.text s :: rest, ctx => (renderToks rest ctx).map fun r => s ++ r
  | Tok.tag t :: rest, ctx =>
    let name := strTrim t
    if isPlainVar name then
      match ctx.lookup name with
      | some v => (renderToks rest ctx).map fun r => valueToString v ++ r
      | none => .error ⟨"Could not find variable " ++ name⟩
    else .error ⟨"Unsupported construct in tag " ++ name⟩

/-- Modelled from the spec: `TemplateEngine.render` of the missing
`core/template.py`; `frags` stands for the optional named partial
fragments, which the modelled fragment does not evaluate. -/
def render (template : String) (ctx : List (String × Value))
    (frags : List (String × String)) : Except TemplateRenderError String :=
  let _ := frags
  renderToks (scanTemplate template) ctx

/-- A chat message: role, content, and the opaque pass-through fields the
core never interprets. -/
structure ChatMessage where
  role : String
  content : String
  name : Option String := none
  function_call : Option String := none
  tool_calls : Option String := none
deriving DecidableEq

/-- Modelled from the spec: `ChatTemplateEngine.render_messages` of the
missing `core/template.py` — renders the content of each message against the
context, leaving every other field untouched and preserving order. -/
def renderMessages : List ChatMessage → List (String × Value) →
    Except TemplateRenderError (List ChatMessage)
  | [], _ => .ok []
  | m :: rest, ctx =>
    match render m.content ctx [] with
    | .error e => .error e
    | .ok c =>
      match renderMessages rest ctx with
      | .error e => .error e
      | .ok outs => .ok ({ m with content := c } :: outs)

/-- Is a token a text run or a plain-variable tag (no block helper, closer
or partial marker)?  Decidable form used to delimit the modelled template
fragment. -/
def tagPlain : Tok → Bool
  | .text _ => true
  | .tag s => isPlainVar (strTrim s)

/-- Is a token a tag whose (trimmed) variable is unbound in `ctx`? -/
def tagUnbound (ctx : List (String × Value)) : Tok → Bool
  | .text _ => false
  | .tag s => (ctx.lookup (strTrim s)).isNone

/-- Is a token a tag referencing exactly the variable `v`? -/
def tagRefs (v : String) : Tok → Bool
  | .text _ => false
  | .tag s => strTrim s == v

/-- Is a token either text, or a plain-variable tag bound in `ctx`? -/
def tagBound (ctx : List (String × Value)) : Tok → Bool
  | .text _ => true
  | .tag s => isPlainVar (strTrim s) && (ctx.lookup (strTrim s)).isSome

/-! ### Schema model (modelled from the spec; `validation/models.py` is not
in the checkout) -/

/-- The declared type of a schema field. -/
inductive FieldType where
  | string
  | integer
  | float
  | boolean
  | list
  | dict
  | enum
deriving DecidableEq

/-- The string value of a `FieldType` member (the on-disk spelling). -/
def FieldType.value : FieldType → String
  | .string => "string"
  | .integer => "integer"
  | .float => "float"
  | .boolean => "boolean"
  | .list => "list"
  | .dict => "dict"
  | .enum => "enum"

/-- The kind of a field validator. -/
inductive ValidationType where
  | min_length
  | max_length
  | range
  | regex
  | enum
  | email
  | url
  | uuid
deriving DecidableEq

/-- The on-disk spelling of a `ValidationType` member, used to name the
violated rule in validation errors. -/
def ValidationType.ruleName : ValidationType → String
  | .min_length => "min_length"
  | .max_length => "max_length"
  | .range => "range"
  | .regex => "regex"
  | .enum => "enum"
  | .email => "email"
  | .url => "url"
  | .uuid => "uuid"

/-- Modelled from the spec: a declarative field validator — a kind plus its
kind-specific parameters. -/
structure FieldValidator where
  type : ValidationType
  min_value : Option Int := none
  max_value : Option Int := none
  pattern : Option String := none
  allowed_values : Option (List String) := none
deriving DecidableEq

/-- Modelled from the spec: a schema field — name, type, required flag,
default, nullable flag, list item typing, nested schema reference, ordered
validators and description. -/
structure SchemaField where
  name : String
  type : FieldType
  required : Bool := true
  default : Option Value := none
  nullable : Bool := false
  item_type : Option FieldType := none
  item_schema : Option String := none
  nested_schema : Option String := none
  validators : List FieldValidator := []
  description : Option String := none
deriving DecidableEq

/-- Modelled from the spec: a schema — name, version, description, ordered
fields, and the mutually exclusive `strict` / `allow_extra` flags. -/
structure Schema where
  name : String
  version : String := "1.0.0"
  description : Option String := none
  fields : List SchemaField
  strict : Bool := false
  allow_extra : Bool := false
deriving DecidableEq

/-- Is a name made only of letters, digits, underscores and hyphens? -/
def isValidName (s : String) : Bool :=
  s ≠ "" && s.data.all fun c => c.isAlphanum || c = '_' || c = '-'

/-- Modelled from the spec: construction-time validation of a `Schema` —
field names must be unique, the schema name well formed, and `strict` and
`allow_extra` are mutually exclusive; violations fail fast. -/
def Schema.make (name : String) (fields : List SchemaField)
    (strict : Bool := false) (allow_extra : Bool := false) : Except String Schema :=
  if ¬ isValidName name then .error ("Invalid schema name: " ++ name)
  else if ¬ (fields.map SchemaField.name).Nodup then
    .error "Field names must be unique within a schema"
  else if strict && allow_extra then
    .error "strict and allow_extra are mutually exclusive"
  else .ok { name := name, fields := fields, strict := strict, allow_extra := allow_extra }

/-- Modelled from the spec: an in-memory, name-unique collection of
schemas. -/
structure SchemaRegistry where
  schemas : List Schema
deriving DecidableEq

/-- Modelled from the spec: constructing a registry from a list enforces
schema-name uniqueness up front. -/
def SchemaRegistry.make (schemas : List Schema) : Except String SchemaRegistry :=
  if (schemas.map Schema.name).Nodup then .ok ⟨schemas⟩
  else .error "Schema names must be unique within a registry"

/-- Modelled from the spec: `add_schema` fails if the name already
exists. -/
def SchemaRegistry.add_schema (r : SchemaRegistry) (s : Schema) :
    Except String SchemaRegistry :=
  if s.name ∈ r.schemas.map Schema.name then
    .error ("Schema " ++ s.name ++ " already exists")
  else .ok ⟨r.schemas ++ [s]⟩

/-- Modelled from the spec: `remove_schema(name) -> bool`. -/
def SchemaRegistry.remove_schema (r : SchemaRegistry) (name : String) :
    SchemaRegistry × Bool :=
  if name ∈ r.schemas.map Schema.name then
    (⟨r.schemas.filter fun s => s.name ≠ name⟩, true)
  else (r, false)

/-- Modelled from the spec: `get_schema(name) -> Schema | not-found`. -/
def SchemaRegistry.get_schema (r : SchemaRegistry) (name : String) : Option Schema :=
  r.schemas.find? fun s => s.name = name

/-! ### Validator strategies (modelled from the spec;
`validation/validators.py` is not in the checkout) -/

/-- A quantifier on a regular-expression piece. -/
inductive Quant where
  | one
  | star
  | plus
  | opt
deriving DecidableEq

/-- A regular-expression atom: a literal character, a character class of
ranges, or the wildcard. -/
inductive RAtom where
  | lit (c : Char)
  | cls (ranges : List (Char × Char))
  | wild
deriving DecidableEq

/-- A regular-expression piece: an atom with its quantifier. -/
structure RPiece where
  atom : RAtom
  quant : Quant
deriving DecidableEq

/-- Does a character match an atom? -/
def atomMatch : RAtom → Char → Bool
  | .lit c, d => c = d
  | .cls ranges, d => ranges.any fun p => p.1 ≤ d && d ≤ p.2
  | .wild, _ => true

/-- Parse the body of a character class, up to the closing bracket. -/
def parseClass : List Char → List (Char × Char) → Option (List (Char × Char) × List Char)
  | [], _ => none
  | ']' :: cs, acc => some (acc.reverse, cs)
  | c :: '-' :: ']' :: cs2, acc => some (((c, c) :: acc).reverse, cs2)
  | c :: '-' :: d :: cs2, acc => parseClass cs2 ((c, d) :: acc)
  | c :: cs, acc => parseClass cs ((c, c) :: acc)

/-- Parse a pattern body into pieces (a small regex subset: literals,
classes, wildcard, and the `*`, `+`, `?` quantifiers), with fuel for
termination; the fuel below always suffices because every piece consumes
at least one character. -/
def parsePiecesF : Nat → List Char → Option (List RPiece)
  | 0, _ => none
  | _ + 1, [] => some []
  | n + 1, c :: cs =>
    let step : Option (RAtom × List Char) :=
      if c = '[' then
        match parseClass cs [] with
        | some (ranges, rest) => some (RAtom.cls ranges, rest)
        | none => none
      else if c = '.' then some (RAtom.wild, cs)
      else if c = '\\' ∨ c = '(' ∨ c = ')' ∨ c = '|' then none
      else some (RAtom.lit c, cs)
    match step with
    | none => none
    | some (atom, rest) =>
      match rest with
      | '*' :: rest2 => (parsePiecesF n rest2).map fun ps => ⟨atom, Quant.star⟩ :: ps
      | '+' :: rest2 => (parsePiecesF n rest2).map fun ps => ⟨atom, Quant.plus⟩ :: ps
      | '?' :: rest2 => (parsePiecesF n rest2).map fun ps => ⟨atom, Quant.opt⟩ :: ps
      | _ => (parsePiecesF n rest).map fun ps => ⟨atom, Quant.one⟩ :: ps

/-- Parse a pattern body into pieces. -/
def parsePieces (cs : List Char) : Option (List RPiece) :=
  parsePiecesF (cs.length + 1) cs

/-- Backtracking matcher for a list of pieces against a character list
(full match). -/
def matchPieces : List RPiece → List Char → Bool
  | [], [] => true
  | [], _ :: _ => false
  | p :: ps, cs =>
    match p.quant, cs with
    | Quant.one, [] => false
    | Quant.one, c :: cs2 => atomMatch p.atom c && matchPieces ps cs2
    | Quant.opt, [] => matchPieces ps []
    | Quant.opt, c :: cs2 =>
      matchPieces ps (c :: cs2) || (atomMatch p.atom c && matchPieces ps cs2)
    | Quant.plus, [] => false
    | Quant.plus, c :: cs2 =>
      atomMatch p.atom c && matchPieces (⟨p.atom, Quant.star⟩ :: ps) cs2
    | Quant.star, [] => matchPieces ps []
    | Quant.star, c :: cs2 =>
      matchPieces ps (c :: cs2) ||
        (atomMatch p.atom c && matchPieces (⟨p.atom, Quant.star⟩ :: ps) cs2)
termination_by ps cs => (cs.length, ps.length)

/-- Modelled from the spec: does a string match a regex pattern?  Anchors
`^`/`$` are stripped; the supported subset matches the whole string, and a
pattern outside the subset accepts nothing. -/
def regexAccepts (pattern s : String) : Bool :=
  let body := pattern.data
  let body := if body.head? = some '^' then body.drop 1 else body
  let body := if body.getLast? = some '$' then body.dropLast else body
  match parsePieces body with
  | some ps => matchPieces ps s.data
  | none => false

/-- The length of a value, when it supports one. -/
def valueLength : Value → Option Nat
  | .vstr s => some s.length
  | _ => none

/-- Is this string a well-formed e-mail address (modelled grammar)? -/
def isEmailString (s : String) : Bool :=
  match s.splitOn "@" with
  | [l, d] =>
    l ≠ "" && d ≠ "" && d.data.contains '.' &&
      !(strStartsWith d ".") && d.data.getLast? ≠ some '.'
  | _ => false

/-- Is this string a well-formed URL (modelled grammar)? -/
def isURLString (s : String) : Bool :=
  (strStartsWith s "http://" && s.length > 7) ||
    (strStartsWith s "https://" && s.length > 8)

/-- Is this character a hexadecimal digit? -/
def isHexDigitChar (c : Char) : Bool :=
  c.isDigit || ('a' ≤ c && c ≤ 'f') || ('A' ≤ c && c ≤ 'F')

/-- Is this string a well-formed UUID (8-4-4-4-12 hex digits)? -/
def isUUIDString (s : String) : Bool :=
  s.data.length = 36 &&
    s.data.enum.all fun p =>
      if p.1 = 8 ∨ p.1 = 13 ∨ p.1 = 18 ∨ p.1 = 23 then p.2 = '-'
      else isHexDigitChar p.2

/-- Modelled from the spec: the pure predicate of one validator strategy
applied to one value — length bounds, inclusive numeric range, regex,
enum membership, and the string grammars; a value of an unsupported shape
fails. -/
def FieldValidator.passes (w : FieldValidator) (v : Value) : Bool :=
  match w.type with
  | .min_length =>
    match valueLength v, w.min_value with
    | some n, some m => m ≤ (n : Int)
    | _, _ => false
  | .max_length =>
    match valueLength v, w.max_value with
    | some n, some m => (n : Int) ≤ m
    | _, _ => false
  | .range =>
    match v, w.min_value, w.max_value with
    | .vint n, some lo, some hi => lo ≤ n && n ≤ hi
    | _, _, _ => false
  | .regex =>
    match v, w.pattern with
    | .vstr s, some p => regexAccepts p s
    | _, _ => false
  | .enum =>
    match v, w.allowed_values with
    | .vstr s, some vs => s ∈ vs
    | _, _ => false
  | .email => match v with | .vstr s => isEmailString s | _ => false
  | .url => match v with | .vstr s => isURLString s | _ => false
  | .uuid => match v with | .vstr s => isUUIDString s | _ => false

/-! ### Data validation (modelled from the spec; `validation/loader.py` is
not in the checkout) -/

/-- A validation failure, naming the offending field and the violated
rule. -/
structure SchemaValidationError where
  fieldName : String
  rule : String
deriving DecidableEq

/-- Does a value have the declared field type?  (The model covers the
scalar types `Value` carries; `float`, `list` and `dict` payloads are
outside the modelled value universe and never match.) -/
def typeMatches : FieldType → Value → Bool
  | .string, .vstr _ => true
  | .integer, .vint _ => true
  | .boolean, .vbool _ => true
  | .enum, .vstr _ => true
  | _, _ => false

/-- The value an absent optional field receives: its declared default, or
`None` for a nullable field without one. -/
def SchemaField.defaultValue (f : SchemaField) : Value :=
  f.default.getD Value.vnull

/-- Modelled from the spec: the per-field step of `validate_data` —
presence/requiredness, declared default, nullability, type check with no
coercion, then the attached validators in order; the first violation is
reported with the field name and the violated rule. -/
def validateField (f : SchemaField) (v? : Option Value) :
    Except SchemaValidationError Value :=
  match v? with
  | none =>
    if f.required then .error ⟨f.name, "required"⟩
    else .ok f.defaultValue
  | some v =>
    if v = Value.vnull then
      if f.nullable then .ok v else .error ⟨f.name, "type"⟩
    else if typeMatches f.type v then
      match f.validators.find? (fun w => !(w.passes v)) with
      | some w => .error ⟨f.name, w.type.ruleName⟩
      | none => .ok v
    else .error ⟨f.name, "type"⟩

/-- Modelled from the spec: fold `validateField` over the fields of the schema,
building the validated mapping in field order. -/
def validateFields : List SchemaField → List (String × Value) →
    Except SchemaValidationError (List (String × Value))
  | [], _ => .ok []
  | f :: fs, data =>
    match validateField f (data.lookup f.name) with
    | .error e => .error e
    | .ok v =>
      match validateFields fs data with
      | .error e => .error e
      | .ok rest => .ok ((f.name, v) :: rest)

/-- Modelled from the spec: validate a data mapping against one schema; a
strict schema rejects keys outside the declared fields. -/
def Schema.validate (s : Schema) (data : List (String × Value)) :
    Except SchemaValidationError (List (String × Value)) :=
  if s.strict then
    match data.find? (fun kv => decide (kv.1 ∉ s.fields.map SchemaField.name)) with
    | some kv => .error ⟨kv.1, "extra_field"⟩
    | none => validateFields s.fields data
  else validateFields s.fields data

/-- Modelled from the spec: `SchemaLoader.validate_data(schema_name, data)`
of the missing `validation/loader.py` — resolves the schema in the
loader cache (an unknown name is a validation failure) and validates the
mapping, raising `SchemaValidationError` on any violation. -/
def validateData (cache : List (String × Schema)) (name : String)
    (data : List (String × Value)) : Except SchemaValidationError (List (String × Value)) :=
  match cache.lookup name with
  | none => .error ⟨name, "schema_not_found"⟩
  | some s => s.validate data

/-! ### PromptManager (embedded from `src/prompt_manager/core/manager.py`) -/

/-- The format of a prompt (`PromptFormat` of `core/models.py`). -/
inductive PromptFormat where
  | text
  | chat
deriving DecidableEq

/-- A text template: content plus named partial fragments (the `partials`
mapping of the source model). -/
structure Template where
  content : String
  fragments : List (String × String) := []
deriving DecidableEq

/-- The slice of the `Prompt` model that `PromptManager.render` reads. -/
structure Prompt where
  id : String
  version : String
  format : PromptFormat
  template : Option Template := none
  chat_template : Option (List ChatMessage) := none
  input_schema : Option String := none
  output_schema : Option String := none
deriving DecidableEq

/-- Embedded from the source, `PromptManager._format_input_schema_description`: heading, optional description, and a bullet per field. -/
def formatInputSchemaDescription (schema : Schema) : String :=
  let head := ["# Input Requirements", ""]
  let head := head ++ (match schema.description with
    | some d => [d, ""]
    | none => [])
  let lines := head ++ ["Expected input fields:"] ++ schema.fields.map fun f =>
    let required := if f.required then "required" else "optional"
    let desc := f.description.getD "No description"
    "- " ++ f.name ++ " (" ++ f.type.value ++ ", " ++ required ++ "): " ++ desc
  joinSep "\n" lines

/-- The example line `PromptManager._format_output_schema_description`
emits for field `f` at position `i` of `n` fields: a type-appropriate
placeholder, an inline required/description comment, and a trailing comma
on every field but the last. -/
def outputFieldLine (n i : Nat) (f : SchemaField) : String :=
  let required := if f.required then "required" else "optional"
  let desc := f.description.getD "No description"
  let ex :=
    match f.type with
    | .string => "  \"" ++ f.name ++ "\": \"your " ++ f.name ++ " here\""
    | .integer => "  \"" ++ f.name ++ "\": 0"
    | .float => "  \"" ++ f.name ++ "\": 0.0"
    | .boolean => "  \"" ++ f.name ++ "\": true"
    | .list => "  \"" ++ f.name ++ "\": []"
    | .dict => "  \"" ++ f.name ++ "\": \x7b\x7d"
    | _ => "  \"" ++ f.name ++ "\": null"
  let ex := ex ++ "  // " ++ required ++ " - " ++ desc
  if i < n - 1 then ex ++ "," else ex

/-- The line list built by
`PromptManager._format_output_schema_description`. -/
def outputSchemaLines (schema : Schema) : List String :=
  let head := ["# Output Requirements", "",
    "You MUST respond with valid JSON matching this exact structure:", ""]
  let head := head ++ (match schema.description with
    | some d => [d, ""]
    | none => [])
  head ++ ["Required JSON format:", "```json", "\x7b"]
    ++ (schema.fields.enum.map fun p => outputFieldLine schema.fields.length p.1 p.2)
    ++ ["\x7d", "```", "",
      "IMPORTANT: Return ONLY the JSON object, no additional text or explanation."]

/-- Embedded from the source, `PromptManager._format_output_schema_description`:
the joined line list. -/
def formatOutputSchemaDescription (schema : Schema) : String :=
  joinSep "\n" (outputSchemaLines schema)

/-- Embedded from the source, `PromptManager._inject_schema_descriptions`:
collect the input description (when the input schema resolves in the
loader cache), the rendered content, and the output description (when
the output schema resolves), joined by blank lines; an unresolved schema
name contributes nothing. -/
def injectSchemaDescriptions (cache : List (String × Schema)) (p : Prompt)
    (content : String) : String :=
  let parts : List String :=
    (match p.input_schema with
      | some n =>
        match cache.lookup n with
        | some s => [formatInputSchemaDescription s]
        | none => []
      | none => [])
  let parts := parts ++ [content]
  let parts := parts ++
    (match p.output_schema with
      | some n =>
        match cache.lookup n with
        | some s => [formatOutputSchemaDescription s]
        | none => []
      | none => [])
  joinSep "\n\n" parts

/-- Failures `PromptManager.render` can surface. -/
inductive RenderError where
  | notFound (id : String)
  | templateErr (msg : String)
  | renderErr (e : TemplateRenderError)
  | validationErr (e : SchemaValidationError)
deriving DecidableEq

/-- Embedded from the source, `PromptManager._render_text`: a missing
template is a `TemplateError`, otherwise render the content and inject the
schema descriptions. -/
def renderTextPrompt (cache : List (String × Schema)) (p : Prompt)
    (vars : List (String × Value)) : Except RenderError String :=
  match p.template with
  | none => .error (.templateErr ("Prompt " ++ p.id ++ " missing template"))
  | some t =>
    match render t.content vars t.fragments with
    | .error e => .error (.renderErr e)
    | .ok content => .ok (injectSchemaDescriptions cache p content)

/-- Embedded from the source, `PromptManager._render_chat`: render each
message, format as `role: content` paragraphs, then inject the schema
descriptions. -/
def renderChatPrompt (cache : List (String × Schema)) (p : Prompt)
    (vars : List (String × Value)) : Except RenderError String :=
  match p.chat_template with
  | none => .error (.templateErr ("Prompt " ++ p.id ++ " missing chat_template"))
  | some msgs =>
    match renderMessages msgs vars with
    | .error e => .error (.renderErr e)
    | .ok rendered =>
      let formatted := joinSep "\n\n" (rendered.map fun m => m.role ++ ": " ++ m.content)
      .ok (injectSchemaDescriptions cache p formatted)

/-- The format dispatch of `PromptManager.render` (chat or text). -/
def renderBody (cache : List (String × Schema)) (p : Prompt)
    (vars : List (String × Value)) : Except RenderError String :=
  match p.format with
  | .chat => renderChatPrompt cache p vars
  | .text => renderTextPrompt cache p vars

/-- The result of `PromptManager.render`: a rendered string, or — when
`validate_output` is set and the prompt declares an output schema — the
dict of prompt, output schema name, prompt id and version. -/
inductive RenderResult where
  | str (s : String)
  | dict (prompt output_schema prompt_id version : String)
deriving DecidableEq

/-- The tail of `PromptManager.render`, embedded from the source: the
`validate_output and prompt.output_schema` branch returning the dict form,
else the rendered string. -/
def finishRender (p : Prompt) (prompt_id : String) (validate_output : Bool)
    (rendered : String) : RenderResult :=
  match p.output_schema with
  | some os => if validate_output then .dict rendered os prompt_id p.version else .str rendered
  | none => .str rendered

/-- The input-validation step of `PromptManager.render`, embedded from the
source: when `validate_input` is set and the prompt declares an input
schema, replace the variables by the validated mapping. -/
def inputValidate (schemas : List (String × Schema)) (p : Prompt)
    (validate_input : Bool) (varMap : List (String × Value)) :
    Except RenderError (List (String × Value)) :=
  if validate_input then
    match p.input_schema with
    | some sn =>
      match validateData schemas sn varMap with
      | .ok vs => .ok vs
      | .error e => .error (.validationErr e)
    | none => .ok varMap
  else .ok varMap

/-- Key order used by `sorted(variables.items())`: compare by key (keys of
a mapping are pairwise distinct, so the tuple comparison never reaches the
values). -/
def keyLe (a b : String × Value) : Prop := a.1 ≤ b.1

instance : DecidableRel keyLe := fun a b => inferInstanceAs (Decidable (a.1 ≤ b.1))

instance : IsTotal (String × Value) keyLe := ⟨fun a b => le_total a.1 b.1⟩

instance : IsTrans (String × Value) keyLe := ⟨fun _ _ _ h1 h2 => le_trans h1 h2⟩

/-- One `f"\x7bk\x7d=\x7bv\x7d"` entry of the cache key. -/
def formatPair (kv : String × Value) : String := kv.1 ++ "=" ++ valueToString kv.2

/-- Embedded from the source, `PromptManager._make_cache_key`: sort the
variable items, join them as `k=v` entries with `|`, and append the hash
of that string; `h` stands for the per-run Python string hash. -/
def makeCacheKey (h : String → Int) (prompt_id version : String)
    (varMap : List (String × Value)) : String :=
  let sortedVars := List.insertionSort keyLe varMap
  let var_str := joinSep "|" (sortedVars.map formatPair)
  "prompt:" ++ prompt_id ++ ":" ++ version ++ ":" ++ toString (h var_str)

/-- The cache-miss path of `PromptManager.render`: render by format and
apply the output-schema tail. -/
def renderFresh (schemas : List (String × Schema)) (p : Prompt)
    (prompt_id : String) (validate_output : Bool) (vars : List (String × Value)) :
    Except RenderError RenderResult :=
  match renderBody schemas p vars with
  | .error e => .error e
  | .ok rendered => .ok (finishRender p prompt_id validate_output rendered)

/-- Embedded from the source, `PromptManager.render`: look up the prompt,
validate the input variables, consult the cache (a cached value is
returned when truthy — `if cached:` — so the empty string counts as a
miss), otherwise render and apply the output-schema tail.  `registry`
models the prompt registry, `schemas` the schema loader cache, `cache`
the optional configured cache (a key-to-value map), and `h` the per-run
per-run string hash. -/
def managerRender (registry : List (String × Prompt))
    (schemas : List (String × Schema)) (cache : Option (String → Option String))
    (h : String → Int) (use_cache validate_input validate_output : Bool)
    (prompt_id : String) (varMap : List (String × Value)) :
    Except RenderError RenderResult :=
  match registry.lookup prompt_id with
  | none => .error (.notFound prompt_id)
  | some p =>
    match inputValidate schemas p validate_input varMap with
    | .error e => .error e
    | .ok vars =>
      let key := makeCacheKey h prompt_id p.version vars
      let cached : Option String :=
        if use_cache then
          match cache with
          | some c => c key
          | none => none
        else none
      match cached with
      | some s =>
        if s = "" then renderFresh schemas p prompt_id validate_output vars
        else .ok (.str s)
      | none => renderFresh schemas p prompt_id validate_output vars

/-! ### Concrete fixtures used by the theorems below (taken from the test
suite and the claims) -/

/-- The `timeout` field of the `config` schema in
`test_validation_standalone.test_data_validation`: optional integer,
default 30, range validator with `min_value=1`, `max_value=300`. -/
def timeoutField : SchemaField :=
  { name := "timeout", type := .integer, required := false,
    default := some (.vint 30),
    validators := [{ type := .range, min_value := some 1, max_value := some 300 }] }

/-- The `config` schema of `test_data_validation`. -/
def configSchema : Schema := { name := "config", fields := [timeoutField] }

/-- The required string field `username` of the `user` schema in
`test_validation.test_validate_data`. -/
def usernameField : SchemaField := { name := "username", type := .string }

/-- The optional nullable integer field `age` of the `user` schema. -/
def ageField : SchemaField :=
  { name := "age", type := .integer, required := false, nullable := true }

/-- The `user` schema of `test_validate_data`. -/
def userSchema : Schema := { name := "user", fields := [usernameField, ageField] }

/-- The two-field output schema of claim C4:
`[{name:"summary",type:string,required:true},
  {name:"word_count",type:integer,required:true}]`. -/
def analysisSchema : Schema :=
  { name := "analysis",
    fields := [{ name := "summary", type := .string },
      { name := "word_count", type := .integer }] }

/-- A one-variable text template. -/
def greetTemplate : Template := { content := "Hello \x7b\x7bname\x7d\x7d!" }

/-- A text prompt with an output schema, for the cache-hit theorems. -/
def greetPrompt : Prompt :=
  { id := "greet", version := "1.0.0", format := .text,
    template := some greetTemplate, output_schema := some "analysis" }

/-- A text prompt whose input schema names a schema the loader has not
cached. -/
def missingInputPrompt : Prompt :=
  { id := "p1", version := "1.0.0", format := .text,
    template := some { content := "Hello" }, input_schema := some "missing_schema" }

/-- A text prompt whose output schema names a schema the loader has not
cached. -/
def outOnlyPrompt : Prompt :=
  { id := "p2", version := "1.0.0", format := .text,
    template := some { content := "Body \x7b\x7bname\x7d\x7d" },
    output_schema := some "nope" }

/-- A stand-in for the per-run Python string hash. -/
def constHash : String → Int := fun _ => 0

/-- A cache whose every lookup hits with a non-empty value. -/
def hitCache : String → Option String := fun _ => some "CACHED"

/-- A cache whose every lookup yields the cached empty string. -/
def emptyCache : String → Option String := fun _ => some ""

/-- A variable mapping, and `varsB` the same mapping in the other
insertion order. -/
def varsA : List (String × Value) := [("b", .vint 2), ("a", .vstr "x")]

/-- See `varsA`. -/
def varsB : List (String × Value) := [("a", .vstr "x"), ("b", .vint 2)]

/-! ### Helper lemmas: field validation -/

theorem validateField_ok_val {f : SchemaField} {v u : Value}
    (h : validateField f (some v) = .ok u) : u = v := by
  simp only [validateField] at h
  split at h
  · split at h
    · exact (Except.ok.inj h).symm
    · exact Except.noConfusion h
  · split at h
    · split at h
      · exact Except.noConfusion h
      · exact (Except.ok.inj h).symm
    · exact Except.noConfusion h

theorem validateField_ok_passes {f : SchemaField} {v u : Value}
    (h : validateField f (some v) = .ok u) (hnn : v ≠ Value.vnull) :
    ∀ w ∈ f.validators, w.passes v = true := by
  intro w hw
  simp only [validateField, if_neg hnn] at h
  split at h
  · split at h
    · exact Except.noConfusion h
    · rename_i hfind
      have := List.find?_eq_none.mp hfind w hw
      simpa using this
  · exact Except.noConfusion h

theorem validateField_error_of_violation {f : SchemaField} {v : Value}
    (hnn : v ≠ Value.vnull) (hty : typeMatches f.type v = true)
    {w0 : FieldValidator} (hw0 : w0 ∈ f.validators) (hfail : w0.passes v = false) :
    ∃ w, w ∈ f.validators ∧ w.passes v = false ∧
      validateField f (some v) = .error ⟨f.name, w.type.ruleName⟩ := by
  have hsome : (f.validators.find? (fun w => !(w.passes v))).isSome := by
    rw [List.find?_isSome]
    exact ⟨w0, hw0, by simp [hfail]⟩
  obtain ⟨w, hw⟩ := Option.isSome_iff_exists.mp hsome
  refine ⟨w, List.mem_of_find?_eq_some hw, by simpa using List.find?_some hw, ?_⟩
  simp only [validateField, if_neg hnn, if_pos hty, hw]

theorem validateField_cases {f : SchemaField} {o : Option Value} {v : Value}
    (h : validateField f o = .ok v) :
    (∃ v0, o = some v0 ∧ v = v0) ∨ (o = none ∧ v = f.defaultValue) := by
  cases o with
  | none =>
    right
    refine ⟨rfl, ?_⟩
    simp only [validateField] at h
    split at h
    · exact Except.noConfusion h
    · exact (Except.ok.inj h).symm
  | some v0 => exact Or.inl ⟨v0, rfl, validateField_ok_val h⟩

theorem validateFields_ok_mem :
    ∀ (fs : List SchemaField) (data out : List (String × Value)),
      validateFields fs data = .ok out →
      ∀ k v, (k, v) ∈ out →
        ∃ f, f ∈ fs ∧ f.name = k ∧ validateField f (data.lookup f.name) = .ok v := by
  intro fs
  induction fs with
  | nil =>
    intro data out h k v hmem
    simp only [validateFields] at h
    cases Except.ok.inj h
    simp at hmem
  | cons f fs ih =>
    intro data out h k v hmem
    simp only [validateFields] at h
    cases hf : validateField f (data.lookup f.name) with
    | error e => rw [hf] at h; exact Except.noConfusion h
    | ok v1 =>
      rw [hf] at h
      cases hrest : validateFields fs data with
      | error e => rw [hrest] at h; exact Except.noConfusion h
      | ok rest =>
        rw [hrest] at h
        cases Except.ok.inj h
        rcases List.mem_cons.mp hmem with heq | htail
        · injection heq with hk hv
          subst hk; subst hv
          exact ⟨f, List.mem_cons_self _ _, rfl, hf⟩
        · obtain ⟨f2, hf2, hn2, hv2⟩ := ih data rest hrest k v htail
          exact ⟨f2, List.mem_cons_of_mem _ hf2, hn2, hv2⟩

theorem validateData_ok_fields {cache : List (String × Schema)} {name : String}
    {data out : List (String × Value)}
    (h : validateData cache name data = .ok out) :
    ∃ sch, cache.lookup name = some sch ∧ validateFields sch.fields data = .ok out := by
  unfold validateData at h
  split at h
  · exact Except.noConfusion h
  · rename_i sch hc
    refine ⟨sch, hc, ?_⟩
    unfold Schema.validate at h
    split at h
    · split at h
      · exact Except.noConfusion h
      · exact h
    · exact h

/-! ### Claim theorems: validation -/

/-- C1: a present non-null value is accepted only if every attached
validator passes; a type-correct value violating some validator is
rejected with a `SchemaValidationError` naming the offending field and the
violated rule; and on the concrete range example of the claim,
`validate_data` over the `config` schema (range `min_value=1`,
`max_value=300`) rejects 500 naming `timeout` and `range`, and accepts
60. -/
theorem validateData_enforces_validators :
    (∀ (f : SchemaField) (v u : Value), validateField f (some v) = .ok u →
      u = v ∧ (v ≠ Value.vnull → ∀ w ∈ f.validators, w.passes v = true))
    ∧ (∀ (f : SchemaField) (v : Value), v ≠ Value.vnull →
        typeMatches f.type v = true →
        ∀ w0, w0 ∈ f.validators → w0.passes v = false →
        ∃ w, w ∈ f.validators ∧ w.passes v = false ∧
          validateField f (some v) = .error ⟨f.name, w.type.ruleName⟩)
    ∧ validateData [("config", configSchema)] "config" [("timeout", Value.vint 500)]
        = .error ⟨"timeout", "range"⟩
    ∧ validateData [("config", configSchema)] "config" [("timeout", Value.vint 60)]
        = .ok [("timeout", Value.vint 60)] := by
  refine ⟨?_, ?_, by decide, by decide⟩
  · intro f v u h
    exact ⟨validateField_ok_val h, fun hnn => validateField_ok_passes h hnn⟩
  · intro f v hnn hty w0 hw0 hfail
    exact validateField_error_of_violation hnn hty hw0 hfail

/-- Witness for C1: the hypotheses of `validateData_enforces_validators`
hold at the concrete range example of the claim and yield the rejection of
500. -/
theorem validateData_enforces_validators_witness :
    typeMatches timeoutField.type (Value.vint 500) = true ∧
    (∃ w, w ∈ timeoutField.validators ∧ w.passes (Value.vint 500) = false ∧
      validateField timeoutField (some (Value.vint 500))
        = .error ⟨timeoutField.name, w.type.ruleName⟩) :=
  ⟨by decide,
    validateData_enforces_validators.2.1 timeoutField (Value.vint 500)
      (by decide) (by decide)
      { type := .range, min_value := some 1, max_value := some 300 }
      (by decide) (by decide)⟩

/-- C2: `validate_data` never coerces — a string value for an
integer-typed field is rejected (naming the field and a type violation)
rather than converted — and every entry of a validated mapping is either
exactly the input value for that key or the declared default of the field when
the key is absent. -/
theorem validateData_no_coercion :
    (∀ (f : SchemaField) (s : String), f.type = FieldType.integer →
      validateField f (some (Value.vstr s)) = .error ⟨f.name, "type"⟩)
    ∧ (∀ (cache : List (String × Schema)) (name : String)
        (data out : List (String × Value)),
        validateData cache name data = .ok out →
        ∃ sch, cache.lookup name = some sch ∧
          ∀ k v, (k, v) ∈ out →
            data.lookup k = some v ∨
              (data.lookup k = none ∧
                ∃ f, f ∈ sch.fields ∧ f.name = k ∧ v = f.defaultValue)) := by
  constructor
  · intro f s hty
    simp [validateField, typeMatches, hty]
  · intro cache name data out h
    obtain ⟨sch, hc, hfields⟩ := validateData_ok_fields h
    refine ⟨sch, hc, ?_⟩
    intro k v hmem
    obtain ⟨f, hf, hname, hval⟩ := validateFields_ok_mem sch.fields data out hfields k v hmem
    rcases validateField_cases hval with ⟨v0, ho, hv⟩ | ⟨ho, hv⟩
    · left; rw [← hname, ho, hv]
    · right; exact ⟨hname ▸ ho, f, hf, hname, hv⟩

/-- Witness for C2: the string `"25"` supplied for the integer field `age`
is rejected, not coerced. -/
theorem validateData_no_coercion_witness :
    validateField ageField (some (Value.vstr "25"))
      = .error ⟨ageField.name, "type"⟩ :=
  validateData_no_coercion.1 ageField "25" rfl

/-! ### Helper lemmas: template evaluation -/

theorem renderToks_error_of_unbound :
    ∀ (toks : List Tok) (ctx : List (String × Value)),
      toks.all tagPlain = true →
      toks.any (tagUnbound ctx) = true →
      ∃ w, toks.any (tagRefs w) = true ∧ ctx.lookup w = none ∧
        renderToks toks ctx = .error ⟨"Could not find variable " ++ w⟩ := by
  intro toks
  induction toks with
  | nil => intro ctx _ hub; simp at hub
  | cons tok rest ih =>
    intro ctx hplain hub
    rw [List.all_cons, Bool.and_eq_true] at hplain
    obtain ⟨hp1, hp2⟩ := hplain
    cases tok with
    | text s =>
      have hub' : rest.any (tagUnbound ctx) = true := by
        simpa [tagUnbound] using hub
      obtain ⟨w, h1, h2, h3⟩ := ih ctx hp2 hub'
      refine ⟨w, by simp [List.any_cons, h1], h2, ?_⟩
      simp [renderToks, h3, Except.map]
    | tag t =>
      simp only [tagPlain] at hp1
      cases hl : ctx.lookup (strTrim t) with
      | none =>
        refine ⟨strTrim t, by simp [List.any_cons, tagRefs], hl, ?_⟩
        simp [renderToks, hp1, hl]
      | some v =>
        have hub' : rest.any (tagUnbound ctx) = true := by
          rw [List.any_cons] at hub
          simpa [tagUnbound, hl] using hub
        obtain ⟨w, h1, h2, h3⟩ := ih ctx hp2 hub'
        refine ⟨w, by simp [List.any_cons, h1], h2, ?_⟩
        simp [renderToks, hp1, hl, h3, Except.map]

theorem renderToks_ok_of_bound :
    ∀ (toks : List Tok) (ctx : List (String × Value)),
      toks.all (tagBound ctx) = true →
      ∃ r, renderToks toks ctx = .ok r := by
  intro toks
  induction toks with
  | nil => intro ctx _; exact ⟨"", rfl⟩
  | cons tok rest ih =>
    intro ctx hb
    rw [List.all_cons, Bool.and_eq_true] at hb
    obtain ⟨hb1, hb2⟩ := hb
    obtain ⟨r, hr⟩ := ih ctx hb2
    cases tok with
    | text s => exact ⟨s ++ r, by simp [renderToks, hr, Except.map]⟩
    | tag t =>
      simp only [tagBound, Bool.and_eq_true] at hb1
      obtain ⟨hpl, hsome⟩ := hb1
      obtain ⟨v, hv⟩ := Option.isSome_iff_exists.mp hsome
      exact ⟨valueToString v ++ r, by simp [renderToks, hpl, hv, hr, Except.map]⟩

theorem renderMessages_ok_frame :
    ∀ (msgs : List ChatMessage) (ctx : List (String × Value)) (out : List ChatMessage),
      renderMessages msgs ctx = .ok out →
      out.length = msgs.length ∧
        ∀ i (hi : i < msgs.length) (ho : i < out.length),
          (out.get ⟨i, ho⟩).role = (msgs.get ⟨i, hi⟩).role ∧
          (out.get ⟨i, ho⟩).name = (msgs.get ⟨i, hi⟩).name ∧
          (out.get ⟨i, ho⟩).function_call = (msgs.get ⟨i, hi⟩).function_call ∧
          (out.get ⟨i, ho⟩).tool_calls = (msgs.get ⟨i, hi⟩).tool_calls ∧
          render (msgs.get ⟨i, hi⟩).content ctx [] = .ok (out.get ⟨i, ho⟩).content := by
  intro msgs
  induction msgs with
  | nil =>
    intro ctx out h
    cases Except.ok.inj h
    exact ⟨rfl, fun i hi => absurd hi (Nat.not_lt_zero i)⟩
  | cons m rest ih =>
    intro ctx out h
    simp only [renderMessages] at h
    cases hr : render m.content ctx [] with
    | error e => rw [hr] at h; exact Except.noConfusion h
    | ok c =>
      rw [hr] at h
      cases hrest : renderMessages rest ctx with
      | error e => rw [hrest] at h; exact Except.noConfusion h
      | ok outs =>
        rw [hrest] at h
        cases Except.ok.inj h
        obtain ⟨hlen, hframe⟩ := ih ctx outs hrest
        refine ⟨by simp [hlen], ?_⟩
        intro i hi ho
        cases i with
        | zero => exact ⟨rfl, rfl, rfl, rfl, hr⟩
        | succ j =>
          exact hframe j (Nat.lt_of_succ_lt_succ hi) (Nat.lt_of_succ_lt_succ ho)

theorem renderMessages_ok_of_bound :
    ∀ (msgs : List ChatMessage) (ctx : List (String × Value)),
      (msgs.all fun m => (scanTemplate m.content).all (tagBound ctx)) = true →
      ∃ out, renderMessages msgs ctx = .ok out := by
  intro msgs
  induction msgs with
  | nil => intro ctx _; exact ⟨[], rfl⟩
  | cons m rest ih =>
    intro ctx hb
    rw [List.all_cons, Bool.and_eq_true] at hb
    obtain ⟨hb1, hb2⟩ := hb
    obtain ⟨r, hr⟩ := renderToks_ok_of_bound (scanTemplate m.content) ctx hb1
    obtain ⟨outs, houts⟩ := ih ctx hb2
    refine ⟨{ m with content := r } :: outs, ?_⟩
    have hr' : render m.content ctx [] = .ok r := hr
    simp only [renderMessages, hr', houts]

/-! ### Claim theorems: template engine -/

/-- C3: rendering a template that references a variable unbound in the
context raises `TemplateRenderError` naming an unresolved variable of the
template, rather than substituting an empty string.  (The hypotheses
restrict the template to the plain-variable fragment the model
evaluates.) -/
theorem render_missing_variable_raises (template : String)
    (ctx : List (String × Value)) (v : String)
    (hplain : (scanTemplate template).all tagPlain = true)
    (href : (scanTemplate template).any (tagRefs v) = true)
    (hub : ctx.lookup v = none) :
    ∃ w, (scanTemplate template).any (tagRefs w) = true ∧ ctx.lookup w = none ∧
      render template ctx [] = .error ⟨"Could not find variable " ++ w⟩ := by
  have hany : (scanTemplate template).any (tagUnbound ctx) = true := by
    rw [List.any_eq_true] at href ⊢
    obtain ⟨tok, htok, href⟩ := href
    refine ⟨tok, htok, ?_⟩
    cases tok with
    | text s => simp [tagRefs] at href
    | tag s =>
      simp only [tagRefs, beq_iff_eq] at href
      simp [tagUnbound, href, hub]
  exact renderToks_error_of_unbound (scanTemplate template) ctx hplain hany

/-- Witness for C3: `"Hello \x7b\x7bname\x7d\x7d!"` rendered against the empty
context fails, naming `name`. -/
theorem render_missing_variable_raises_witness :
    ∃ w, (scanTemplate "Hello \x7b\x7bname\x7d\x7d!").any (tagRefs w) = true ∧
      ([] : List (String × Value)).lookup w = none ∧
      render "Hello \x7b\x7bname\x7d\x7d!" [] [] = .error ⟨"Could not find variable " ++ w⟩ :=
  render_missing_variable_raises "Hello \x7b\x7bname\x7d\x7d!" [] "name"
    (by decide) (by decide) (by decide)

/-- C6: `extract_variables` is duplicate-free — each referenced identifier
occurs exactly once in the result however often it appears in the
template — and on the template of the claim it yields exactly
`name` and `other`. -/
theorem extractVariables_dedups :
    (∀ t, (extractVariables t).Nodup)
    ∧ (∀ t v, v ∈ extractVariables t → (extractVariables t).count v = 1)
    ∧ extractVariables "\x7b\x7bname\x7d\x7d \x7b\x7bname\x7d\x7d \x7b\x7bother\x7d\x7d"
        = ["name", "other"] := by
  refine ⟨fun t => List.nodup_dedup _, fun t v hv => ?_, by decide⟩
  exact List.count_eq_one_of_mem (List.nodup_dedup _) hv

/-- Witness for C6: `name` appears twice in the template of the claim but
exactly once in the extracted collection. -/
theorem extractVariables_dedups_witness :
    (extractVariables "\x7b\x7bname\x7d\x7d \x7b\x7bname\x7d\x7d \x7b\x7bother\x7d\x7d").count "name"
      = 1 :=
  extractVariables_dedups.2.1 "\x7b\x7bname\x7d\x7d \x7b\x7bname\x7d\x7d \x7b\x7bother\x7d\x7d"
    "name" (by decide)

/-- C7: when every variable referenced by the messages is bound,
`render_messages` succeeds and returns a sequence of the same length in
the same order in which each message agrees with its input on `role`,
`name`, `function_call` and `tool_calls`, and carries exactly the rendered
form of the input `content`. -/
theorem renderMessages_preserves_fields (msgs : List ChatMessage)
    (ctx : List (String × Value))
    (hbound : (msgs.all fun m => (scanTemplate m.content).all (tagBound ctx)) = true) :
    ∃ out, renderMessages msgs ctx = .ok out ∧ out.length = msgs.length ∧
      ∀ i (hi : i < msgs.length) (ho : i < out.length),
        (out.get ⟨i, ho⟩).role = (msgs.get ⟨i, hi⟩).role ∧
        (out.get ⟨i, ho⟩).name = (msgs.get ⟨i, hi⟩).name ∧
        (out.get ⟨i, ho⟩).function_call = (msgs.get ⟨i, hi⟩).function_call ∧
        (out.get ⟨i, ho⟩).tool_calls = (msgs.get ⟨i, hi⟩).tool_calls ∧
        render (msgs.get ⟨i, hi⟩).content ctx [] = .ok (out.get ⟨i, ho⟩).content := by
  obtain ⟨out, hout⟩ := renderMessages_ok_of_bound msgs ctx hbound
  obtain ⟨hlen, hframe⟩ := renderMessages_ok_frame msgs ctx out hout
  exact ⟨out, hout, hlen, hframe⟩

/-- Witness for C7: the message of `test_preserve_message_fields` renders
with `role`, `name` and `function_call` untouched. -/
theorem renderMessages_preserves_fields_witness :
    ∃ out,
      renderMessages
        [{ role := "assistant", content := "Hello \x7b\x7bname\x7d\x7d",
           name := some "bot", function_call := some "test" }]
        [("name", Value.vstr "User")] = .ok out ∧
      out.length = 1 ∧
      ∀ i (hi : i < 1) (ho : i < out.length),
        (out.get ⟨i, ho⟩).role = "assistant" ∧
        (out.get ⟨i, ho⟩).name = some "bot" ∧
        (out.get ⟨i, ho⟩).function_call = some "test" ∧
        (out.get ⟨i, ho⟩).tool_calls = none ∧
        render "Hello \x7b\x7bname\x7d\x7d" [("name", Value.vstr "User")] []
          = .ok (out.get ⟨i, ho⟩).content := by
  obtain ⟨out, h1, h2, h3⟩ :=
    renderMessages_preserves_fields
      [{ role := "assistant", content := "Hello \x7b\x7bname\x7d\x7d",
         name := some "bot", function_call := some "test" }]
      [("name", Value.vstr "User")] (by decide)
  refine ⟨out, h1, h2, ?_⟩
  intro i hi ho
  obtain ⟨g1, g2, g3, g4, g5⟩ := h3 i hi ho
  interval_cases i
  exact ⟨g1, g2, g3, g4, g5⟩

/-! ### Claim theorems: construction-time name uniqueness -/

/-- C5: duplicate field names fail `Schema` construction, duplicate schema
names fail `SchemaRegistry` construction, `add_schema` rejects an existing
name — and conversely every successfully constructed schema has pairwise
distinct field names and every registry reachable through construction and
`add_schema` has pairwise distinct schema names. -/
theorem name_uniqueness_invariants :
    (∀ (n : String) (fs : List SchemaField) (st ae : Bool),
      ¬ (fs.map SchemaField.name).Nodup → ∃ msg, Schema.make n fs st ae = .error msg)
    ∧ (∀ ss : List Schema,
        ¬ (ss.map Schema.name).Nodup → ∃ msg, SchemaRegistry.make ss = .error msg)
    ∧ (∀ (r : SchemaRegistry) (s : Schema),
        s.name ∈ r.schemas.map Schema.name → ∃ msg, r.add_schema s = .error msg)
    ∧ (∀ (n : String) (fs : List SchemaField) (st ae : Bool) (sch : Schema),
        Schema.make n fs st ae = .ok sch → (sch.fields.map SchemaField.name).Nodup)
    ∧ (∀ (ss : List Schema) (r : SchemaRegistry),
        SchemaRegistry.make ss = .ok r → (r.schemas.map Schema.name).Nodup)
    ∧ (∀ (r : SchemaRegistry) (s : Schema) (r2 : SchemaRegistry),
        (r.schemas.map Schema.name).Nodup → r.add_schema s = .ok r2 →
        (r2.schemas.map Schema.name).Nodup) := by
  refine ⟨?_, ?_, ?_, ?_, ?_, ?_⟩
  · intro n fs st ae hdup
    unfold Schema.make
    by_cases hv : isValidName n = true
    · rw [if_neg (not_not_intro hv), if_pos hdup]
      exact ⟨_, rfl⟩
    · rw [if_pos hv]
      exact ⟨_, rfl⟩
  · intro ss hdup
    unfold SchemaRegistry.make
    rw [if_neg hdup]
    exact ⟨_, rfl⟩
  · intro r s hmem
    unfold SchemaRegistry.add_schema
    rw [if_pos hmem]
    exact ⟨_, rfl⟩
  · intro n fs st ae sch h
    unfold Schema.make at h
    split at h
    · exact Except.noConfusion h
    · split at h
      · exact Except.noConfusion h
      · split at h
        · exact Except.noConfusion h
        · rename_i hdup _
          cases Except.ok.inj h
          exact not_not.mp hdup
  · intro ss r h
    unfold SchemaRegistry.make at h
    split at h
    · rename_i hnd
      cases Except.ok.inj h
      exact hnd
    · exact Except.noConfusion h
  · intro r s r2 hnd h
    unfold SchemaRegistry.add_schema at h
    split at h
    · exact Except.noConfusion h
    · rename_i hmem
      cases Except.ok.inj h
      simp only [List.map_append, List.map_cons, List.map_nil]
      rw [List.nodup_append]
      refine ⟨hnd, List.nodup_singleton _, ?_⟩
      intro x hx hxs
      rw [List.mem_singleton] at hxs
      exact hmem (hxs ▸ hx)

/-- Witness for C5: a schema with two `username` fields fails
construction, and a registry holding `user` rejects adding `user` again. -/
theorem name_uniqueness_invariants_witness :
    (∃ msg, Schema.make "test" [usernameField, usernameField] false false = .error msg)
    ∧ (∃ msg, SchemaRegistry.add_schema ⟨[userSchema]⟩ userSchema = .error msg) :=
  ⟨name_uniqueness_invariants.1 "test" [usernameField, usernameField] false false
      (by decide),
    name_uniqueness_invariants.2.2.1 ⟨[userSchema]⟩ userSchema (by decide)⟩

/-! ### Claim theorems: schema-to-prompt formatter (embedded from
`manager.py`) -/

set_option maxRecDepth 8000 in
/-- C4: on the two-field schema of the claim,
`_format_output_schema_description` produces exactly the fenced JSON
block with `"summary": "your summary here"` and `"word_count": 0`, each
annotated `required`, a comma after the first field line and none after
the last, closed by the instruction to return only the JSON object. -/
theorem formatOutput_two_field_example :
    outputSchemaLines analysisSchema =
      ["# Output Requirements", "",
        "You MUST respond with valid JSON matching this exact structure:", "",
        "Required JSON format:", "```json", "\x7b",
        "  \"summary\": \"your summary here\"  // required - No description,",
        "  \"word_count\": 0  // required - No description",
        "\x7d", "```", "",
        "IMPORTANT: Return ONLY the JSON object, no additional text or explanation."]
    ∧ formatOutputSchemaDescription analysisSchema =
        "# Output Requirements\n\nYou MUST respond with valid JSON matching this exact structure:\n\nRequired JSON format:\n```json\n\x7b\n  \"summary\": \"your summary here\"  // required - No description,\n  \"word_count\": 0  // required - No description\n\x7d\n```\n\nIMPORTANT: Return ONLY the JSON object, no additional text or explanation." := by
  constructor
  · rfl
  · rfl

/-! ### Claim theorems: PromptManager.render caching (embedded from
`manager.py`) -/

/-- C8: with `use_cache=True` and a cache configured, a cache lookup
yielding a non-empty string is returned as that bare string — whatever
`validate_output` and the output schema of the prompt are, so the dict form is
never produced on a hit — while a cached empty string falls through to a
fresh render. -/
theorem managerRender_cache_hit :
    (∀ (registry : List (String × Prompt)) (schemas : List (String × Schema))
      (c : String → Option String) (h : String → Int) (vi vo : Bool)
      (pid : String) (varMap vars2 : List (String × Value)) (p : Prompt) (s : String),
      registry.lookup pid = some p →
      inputValidate schemas p vi varMap = .ok vars2 →
      c (makeCacheKey h pid p.version vars2) = some s → s ≠ "" →
      managerRender registry schemas (some c) h true vi vo pid varMap = .ok (.str s))
    ∧ (∀ (registry : List (String × Prompt)) (schemas : List (String × Schema))
      (c : String → Option String) (h : String → Int) (vi vo : Bool)
      (pid : String) (varMap vars2 : List (String × Value)) (p : Prompt),
      registry.lookup pid = some p →
      inputValidate schemas p vi varMap = .ok vars2 →
      c (makeCacheKey h pid p.version vars2) = some "" →
      managerRender registry schemas (some c) h true vi vo pid varMap =
        renderFresh schemas p pid vo vars2) := by
  constructor
  · intro registry schemas c h vi vo pid varMap vars2 p s hreg hval hc hne
    simp only [managerRender, hreg, hval, if_true, hc, if_neg hne]
  · intro registry schemas c h vi vo pid varMap vars2 p hreg hval hc
    simp only [managerRender, hreg, hval, if_true, hc, if_pos rfl]

/-- Witness for C8: a prompt that declares an output schema, rendered with
`validate_output=True` through a cache holding `"CACHED"`, returns the
bare cached string; through a cache holding `""`, it falls through to the
fresh render. -/
theorem managerRender_cache_hit_witness :
    greetPrompt.output_schema = some "analysis"
    ∧ managerRender [("greet", greetPrompt)] [] (some hitCache) constHash
        true true true "greet" [("name", Value.vstr "World")] = .ok (.str "CACHED")
    ∧ managerRender [("greet", greetPrompt)] [] (some emptyCache) constHash
        true true true "greet" [("name", Value.vstr "World")] =
      renderFresh [] greetPrompt "greet" true [("name", Value.vstr "World")] :=
  ⟨rfl,
    managerRender_cache_hit.1 [("greet", greetPrompt)] [] hitCache constHash
      true true "greet" [("name", Value.vstr "World")] [("name", Value.vstr "World")]
      greetPrompt "CACHED" rfl rfl rfl (by decide),
    managerRender_cache_hit.2 [("greet", greetPrompt)] [] emptyCache constHash
      true true "greet" [("name", Value.vstr "World")] [("name", Value.vstr "World")]
      greetPrompt rfl rfl rfl⟩

/-! ### Claim theorems: schema-description injection (embedded from
`manager.py`) -/

/-- Counterexample to C9: a prompt whose `input_schema` names a schema the
loader has not cached does not render — with input validation on (the
default), `render` raises a `SchemaValidationError` before any injection,
instead of completing and omitting the block. -/
theorem managerRender_uncached_input_raises :
    managerRender [("p1", missingInputPrompt)] [] none constHash
      true true false "p1" []
      = .error (.validationErr ⟨"missing_schema", "schema_not_found"⟩) := by
  rfl

/-- C9 (amended): at injection time an unresolved schema block is silently
omitted — when neither schema resolves the body is returned unchanged, and
when both resolve the result is input description, body and output
description joined by blank lines — and `render` completes without
raising for a prompt whose `output_schema` is uncached (output schemas are
never consulted for input validation), returning the rendered body
unchanged. -/
theorem injectSchemaDescriptions_omits_unresolved :
    (∀ (cache : List (String × Schema)) (p : Prompt) (content : String),
      (∀ n, p.input_schema = some n → cache.lookup n = none) →
      (∀ n, p.output_schema = some n → cache.lookup n = none) →
      injectSchemaDescriptions cache p content = content)
    ∧ (∀ (cache : List (String × Schema)) (p : Prompt) (content : String)
        (ni no : String) (si so : Schema),
        p.input_schema = some ni → cache.lookup ni = some si →
        p.output_schema = some no → cache.lookup no = some so →
        injectSchemaDescriptions cache p content =
          formatInputSchemaDescription si ++ "\n\n" ++ content ++ "\n\n"
            ++ formatOutputSchemaDescription so)
    ∧ (∀ (registry : List (String × Prompt)) (schemas : List (String × Schema))
        (h : String → Int) (pid : String) (varMap : List (String × Value))
        (p : Prompt) (t : Template) (no body : String),
        registry.lookup pid = some p →
        p.input_schema = none → p.output_schema = some no →
        schemas.lookup no = none →
        p.format = .text → p.template = some t →
        render t.content varMap t.fragments = .ok body →
        managerRender registry schemas none h false true false pid varMap
          = .ok (.str body)) := by
  refine ⟨?_, ?_, ?_⟩
  · intro cache p content hin hout
    cases hi : p.input_schema with
    | none =>
      cases ho : p.output_schema with
      | none => simp [injectSchemaDescriptions, hi, ho, joinSep]
      | some n => simp [injectSchemaDescriptions, hi, ho, hout n ho, joinSep]
    | some n =>
      cases ho : p.output_schema with
      | none => simp [injectSchemaDescriptions, hi, ho, hin n hi, joinSep]
      | some n2 =>
        simp [injectSchemaDescriptions, hi, ho, hin n hi, hout n2 ho, joinSep]
  · intro cache p content ni no si so hi hli ho hlo
    simp [injectSchemaDescriptions, hi, hli, ho, hlo, joinSep, String.append_assoc]
  · intro registry schemas h pid varMap p t no body hreg hin hout hlo hfmt ht hrender
    have hval : inputValidate schemas p true varMap = .ok varMap := by
      simp [inputValidate, hin]
    have hbody : renderBody schemas p varMap = .ok body := by
      simp only [renderBody, hfmt, renderTextPrompt, ht, hrender,
        injectSchemaDescriptions, hin, hout, hlo]
      simp [joinSep]
    simp only [managerRender, hreg, hval]
    simp [renderFresh, hbody, finishRender, hout]

/-- Witness for C9 (amended): a prompt with only an uncached output schema
renders to its body unchanged. -/
theorem injectSchemaDescriptions_omits_unresolved_witness :
    managerRender [("p2", outOnlyPrompt)] [] none constHash
      false true false "p2" [("name", Value.vstr "X")] = .ok (.str "Body X") :=
  injectSchemaDescriptions_omits_unresolved.2.2 [("p2", outOnlyPrompt)] []
    constHash "p2" [("name", Value.vstr "X")] outOnlyPrompt
    { content := "Body \x7b\x7bname\x7d\x7d" } "nope" "Body X"
    rfl rfl rfl rfl rfl rfl (by decide)

/-! ### Claim theorems: cache-key determinism (embedded from
`manager.py`) -/

theorem sorted_keyLe_eq :
    ∀ (l1 l2 : List (String × Value)),
      l1.Sorted keyLe → l2.Sorted keyLe → l1.Perm l2 →
      (l1.map Prod.fst).Nodup → l1 = l2 := by
  intro l1
  induction l1 with
  | nil =>
    intro l2 _ _ hp _
    exact (List.Perm.eq_nil hp.symm).symm
  | cons a t1 ih =>
    intro l2 hs1 hs2 hp hnd
    cases l2 with
    | nil => exact absurd (List.Perm.eq_nil hp) (by simp)
    | cons b t2 =>
      have hab : a = b := by
        have hainb : a ∈ b :: t2 := hp.subset (List.mem_cons_self _ _)
        have hbina : b ∈ a :: t1 := hp.symm.subset (List.mem_cons_self _ _)
        rcases List.mem_cons.mp hainb with h1 | h1
        · exact h1
        · rcases List.mem_cons.mp hbina with h2 | h2
          · exact h2.symm
          · have hba : keyLe b a := (List.sorted_cons.mp hs2).1 a h1
            have hab2 : keyLe a b := (List.sorted_cons.mp hs1).1 b h2
            have heq : a.1 = b.1 := le_antisymm hab2 hba
            rw [List.map_cons, List.nodup_cons] at hnd
            have hm : b.1 ∈ t1.map Prod.fst := List.mem_map_of_mem Prod.fst h2
            rw [← heq] at hm
            exact absurd hm hnd.1
      subst hab
      have ht : t1 = t2 := by
        refine ih t2 (List.sorted_cons.mp hs1).2 (List.sorted_cons.mp hs2).2
          hp.cons_inv ?_
        rw [List.map_cons, List.nodup_cons] at hnd
        exact hnd.2
      rw [ht]

/-- C10: the cache key is determined by the contents of the variable mapping,
not its ordering — permuting a mapping with pairwise-distinct keys leaves
`_make_cache_key` unchanged for any per-run hash, prompt id and
version. -/
theorem makeCacheKey_order_independent (h : String → Int) (pid ver : String)
    (l1 l2 : List (String × Value)) (hperm : l1.Perm l2)
    (hnd : (l1.map Prod.fst).Nodup) :
    makeCacheKey h pid ver l1 = makeCacheKey h pid ver l2 := by
  have hs1 := List.sorted_insertionSort keyLe l1
  have hs2 := List.sorted_insertionSort keyLe l2
  have hp : (List.insertionSort keyLe l1).Perm (List.insertionSort keyLe l2) :=
    (List.perm_insertionSort keyLe l1).trans
      (hperm.trans (List.perm_insertionSort keyLe l2).symm)
  have hnd1 : ((List.insertionSort keyLe l1).map Prod.fst).Nodup :=
    (((List.perm_insertionSort keyLe l1).map Prod.fst).nodup_iff).mpr hnd
  have heq := sorted_keyLe_eq _ _ hs1 hs2 hp hnd1
  unfold makeCacheKey
  rw [heq]

/-- Witness for C10: the two insertion orders of the same two-variable
mapping produce the same cache key. -/
theorem makeCacheKey_order_independent_witness :
    varsA ≠ varsB ∧
      makeCacheKey constHash "greet" "1.0.0" varsA
        = makeCacheKey constHash "greet" "1.0.0" varsB :=
  ⟨by decide,
    makeCacheKey_order_independent constHash "greet" "1.0.0" varsA varsB
      (List.Perm.swap _ _ _) (by decide)⟩

end PromptMgr
